import Mathlib

/-!
# Verification of the PMS7003 frame decoder and stream reader (mini-aqm)

Shallow embedding of `src/pms7003.py`.  Bytes are modelled as `Nat` values
(with explicit `< 256` hypotheses where the byte range matters), the serial
source as a function from read-index to the list of bytes delivered by that
`serial.read(1024)` call, and wall-clock time as a function from the index of
the `time.time()` call to an integer timestamp.  Loops that may run forever in
the Python code are given explicit fuel; returning `none` at every fuel value
models divergence.
-/

namespace MiniAqm

/-- The decoded reading, mirroring the `PMSData` NamedTuple of `pms7003.py`:
two unsigned 8-bit header bytes followed by fifteen unsigned big-endian
16-bit fields. -/
structure PMSData where
  header_high : Nat
  header_low : Nat
  frame_length : Nat
  pm1_0_cf1 : Nat
  pm2_5_cf1 : Nat
  pm10_0_cf1 : Nat
  pm1_0_atm : Nat
  pm2_5_atm : Nat
  pm10_0_atm : Nat
  count_0_3 : Nat
  count_0_5 : Nat
  count_1_0 : Nat
  count_2_5 : Nat
  count_5_0 : Nat
  count_10_0 : Nat
  reserved : Nat
  checksum : Nat
  deriving Repr, DecidableEq

/-- `PMS7003.HEADER_HIGH` (0x42). -/
def HEADER_HIGH : Nat := 0x42

/-- `PMS7003.HEADER_LOW` (0x4d). -/
def HEADER_LOW : Nat := 0x4D

/-- `PMS7003.PMS_7003_PROTOCOL_SIZE` (32 bytes). -/
def PMS_7003_PROTOCOL_SIZE : Nat := 32

/-- `PMS7003.READ_TIMEOUT_SEC` (2 seconds). -/
def READ_TIMEOUT_SEC : Int := 2

/-- A big-endian unsigned 16-bit value assembled from two bytes, as the `H`
format of `struct.Struct("!2B15H")` reads it. -/
def u16be (hi lo : Nat) : Nat := hi * 256 + lo

/-- `PMSStruct.unpack` applied to the first 32 bytes of a buffer followed by
`PMSData._make`: format `!2B15H`, i.e. two unsigned bytes then fifteen
big-endian unsigned shorts.  The callers in `read` always pass exactly 32
bytes, so the `getD` default is never used there. -/
def unpack32 (l : List Nat) : PMSData where
  header_high := l.getD 0 0
  header_low := l.getD 1 0
  frame_length := u16be (l.getD 2 0) (l.getD 3 0)
  pm1_0_cf1 := u16be (l.getD 4 0) (l.getD 5 0)
  pm2_5_cf1 := u16be (l.getD 6 0) (l.getD 7 0)
  pm10_0_cf1 := u16be (l.getD 8 0) (l.getD 9 0)
  pm1_0_atm := u16be (l.getD 10 0) (l.getD 11 0)
  pm2_5_atm := u16be (l.getD 12 0) (l.getD 13 0)
  pm10_0_atm := u16be (l.getD 14 0) (l.getD 15 0)
  count_0_3 := u16be (l.getD 16 0) (l.getD 17 0)
  count_0_5 := u16be (l.getD 18 0) (l.getD 19 0)
  count_1_0 := u16be (l.getD 20 0) (l.getD 21 0)
  count_2_5 := u16be (l.getD 22 0) (l.getD 23 0)
  count_5_0 := u16be (l.getD 24 0) (l.getD 25 0)
  count_10_0 := u16be (l.getD 26 0) (l.getD 27 0)
  reserved := u16be (l.getD 28 0) (l.getD 29 0)
  checksum := u16be (l.getD 30 0) (l.getD 31 0)

/-- `PMS7003.header_valid`: the two header fields must equal the sentinels. -/
def header_valid (data : PMSData) : Bool :=
  data.header_high == HEADER_HIGH && data.header_low == HEADER_LOW

/-- `PMS7003.checksum_valid`: unpack the 32-byte buffer with
`ChecksumStruct` (`!30BH`, thirty unsigned bytes and a trailing big-endian
unsigned short), sum everything but the final short with Python's exact
integer arithmetic, and compare to the transmitted short. -/
def checksum_valid (buffer : List Nat) : Bool :=
  (buffer.take 30).sum == u16be (buffer.getD 30 0) (buffer.getD 31 0)

/-- One iteration of the inner consume loop of `PMS7003.read`
(lines 150-169): slice the first 32 bytes, unpack, and either
consume the whole frame (header match; the reading is kept only if the
checksum also matches, and the checksum-error counter grows by the returned
increment) or slide forward by a single byte (header mismatch).
Returns (new buffer, data assigned this iteration, checksum-error increment). -/
def readStep (buffer : List Nat) : List Nat × Option PMSData × Nat :=
  let front := buffer.take PMS_7003_PROTOCOL_SIZE
  let maybe_data := unpack32 front
  if header_valid maybe_data then
    if checksum_valid front then
      (buffer.drop PMS_7003_PROTOCOL_SIZE, some maybe_data, 0)
    else
      (buffer.drop PMS_7003_PROTOCOL_SIZE, none, 1)
  else
    (buffer.drop 1, none, 0)

/-- The inner `while len(self.buffer) >= self.PMS_7003_PROTOCOL_SIZE` loop of
`PMS7003.read`, with explicit fuel.  Each iteration overwrites `data` with
the value assigned by that iteration (the Python loop assigns `data` on every
path) and accumulates the checksum-error counter.  Every iteration strictly
shortens the buffer, so fuel equal to the buffer length is always enough;
the fuel-zero case is unreachable while the loop guard holds. -/
def consumeGo : Nat → List Nat → Option PMSData → Nat →
    List Nat × Option PMSData × Nat
  | 0, b, d, e => (b, d, e)
  | fuel + 1, b, d, e =>
    if b.length ≥ PMS_7003_PROTOCOL_SIZE then
      match readStep b with
      | (b', d', e') => consumeGo fuel b' d' (e + e')
    else
      (b, d, e)

/-- The inner consume loop run to completion, starting from buffer `b`,
current `data` value `d` and checksum-error counter `e`. -/
def consumeLoop (b : List Nat) (d : Option PMSData) (e : Nat) :
    List Nat × Option PMSData × Nat :=
  consumeGo b.length b d e

/-- The byte-accumulation loop
`while len(self.buffer) < self.PMS_7003_PROTOCOL_SIZE: self.buffer +=
self.serial.read(1024)` of `PMS7003.read`, with explicit fuel.  `source k`
is the byte list delivered by the `k`-th `serial.read(1024)` call of the
reader's lifetime; `idx` is the index of the next call.  `none` means the
fuel ran out, i.e. the loop had not terminated after `fuel` reads. -/
def fillBuffer : Nat → List Nat → (Nat → List Nat) → Nat →
    Option (List Nat × Nat)
  | fuel, b, source, idx =>
    if b.length ≥ PMS_7003_PROTOCOL_SIZE then some (b, idx)
    else
      match fuel with
      | 0 => none
      | fuel + 1 => fillBuffer fuel (b ++ source idx) source (idx + 1)

/-- Mutable state of one `PMS7003` reader during `read`: the receive buffer,
the running `checksum_errors` counter, the index of the next `serial.read`
call, and the index of the next `time.time()` call. -/
structure ReadState where
  buffer : List Nat
  errors : Nat
  srcIdx : Nat
  tick : Nat
  deriving Repr, DecidableEq

/-- The outer `while data is None` loop of `PMS7003.read` (lines 139-169),
with explicit fuel.  `time` maps the index of a `time.time()` call to its
value and `began` holds the timestamp captured at line 137.  Each iteration
first checks the deadline (breaking with `data = None`, i.e. the Python
function returning `None`), then tops up the buffer from the serial source
(diverging, `none`, if that inner loop never reaches 32 bytes), then runs the
consume loop.  The result `some (d, st)` is the Python return value `d`
together with the reader state left behind for the next call. -/
def readAux : Nat → (Nat → Int) → Int → (Nat → List Nat) → ReadState →
    Option (Option PMSData × ReadState)
  | 0, _, _, _, _ => none
  | fuel + 1, time, began, source, st =>
    if time st.tick - began > READ_TIMEOUT_SEC then
      some (none, { st with tick := st.tick + 1 })
    else
      match fillBuffer fuel st.buffer source st.srcIdx with
      | none => none
      | some (buf, idx) =>
        match consumeLoop buf none st.errors with
        | (buf', data, errs) =>
          match data with
          | some d =>
            some (some d, { buffer := buf', errors := errs, srcIdx := idx,
                            tick := st.tick + 1 })
          | none =>
            readAux fuel time began source
              { buffer := buf', errors := errs, srcIdx := idx,
                tick := st.tick + 1 }

/-- `PMS7003.read` from the top: `began = time.time()` is the 0-th time
call, the buffer holds whatever the previous call left behind, and the
serial backlog flush touches only the OS driver queue, not `self.buffer`. -/
def readFromStart (fuel : Nat) (time : Nat → Int) (source : Nat → List Nat)
    (buffer0 : List Nat) : Option (Option PMSData × ReadState) :=
  readAux fuel time (time 0) source
    { buffer := buffer0, errors := 0, srcIdx := 0, tick := 1 }

/-- A well-formed wire frame: 32 bytes, sentinel header, matching checksum. -/
def validFrame (f : List Nat) : Prop :=
  f.length = 32 ∧ f.getD 0 0 = HEADER_HIGH ∧ f.getD 1 0 = HEADER_LOW ∧
    checksum_valid f = true

instance (f : List Nat) : Decidable (validFrame f) := by
  unfold validFrame; infer_instance

/-- Truthiness of the value returned by `dev.read()` as Python evaluates it
in `find_devices`: `None` is falsy, and a `PMSData` NamedTuple is a non-empty
tuple, hence always truthy. -/
def pythonTruthy (r : Option PMSData) : Bool :=
  r.isSome

/-- The per-port probe outcome of `find_devices` (lines 97-104) as a function
of the `dev.read()` result: on a truthy reading the device is kept (no
error), otherwise the error field is set to `"no data"`. -/
def probeOutcome (r : Option PMSData) : Option String :=
  if pythonTruthy r then none else some "no data"

/-- A concrete valid frame: sentinel header, zero body, checksum
0x42 + 0x4D = 143. -/
def F1 : List Nat :=
  [0x42, 0x4D, 0, 0, 0, 0, 0, 0, 0, 0, 0, 0, 0, 0, 0, 0,
   0, 0, 0, 0, 0, 0, 0, 0, 0, 0, 0, 0, 0, 0, 0, 143]

/-- A second concrete valid frame, differing from `F1` in the frame-length
field: byte 3 is 1, so the checksum is 144. -/
def F2 : List Nat :=
  [0x42, 0x4D, 0, 1, 0, 0, 0, 0, 0, 0, 0, 0, 0, 0, 0, 0,
   0, 0, 0, 0, 0, 0, 0, 0, 0, 0, 0, 0, 0, 0, 0, 144]

example : validFrame F1 := by decide
example : validFrame F2 := by decide
example : readStep F1 = ([], some (unpack32 F1), 0) := by decide

/-- C1: a 32-byte buffer with sentinel header bytes 0x42, 0x4D and a trailing
big-endian 16-bit checksum field matching the sum of the first 30 bytes is
decoded into a Reading whose 16 fields are the big-endian interpretation of
the corresponding byte ranges (two unsigned 8-bit header bytes, then fifteen
unsigned big-endian 16-bit fields), with exactly 32 bytes consumed from the
front of the buffer (leaving it empty). -/
theorem decode_valid_frame (b : List Nat) (hlen : b.length = 32)
    (h0 : b.getD 0 0 = 0x42) (h1 : b.getD 1 0 = 0x4D)
    (hck : (b.take 30).sum = u16be (b.getD 30 0) (b.getD 31 0)) :
    readStep b =
      (b.drop 32,
       some { header_high := b.getD 0 0
              header_low := b.getD 1 0
              frame_length := u16be (b.getD 2 0) (b.getD 3 0)
              pm1_0_cf1 := u16be (b.getD 4 0) (b.getD 5 0)
              pm2_5_cf1 := u16be (b.getD 6 0) (b.getD 7 0)
              pm10_0_cf1 := u16be (b.getD 8 0) (b.getD 9 0)
              pm1_0_atm := u16be (b.getD 10 0) (b.getD 11 0)
              pm2_5_atm := u16be (b.getD 12 0) (b.getD 13 0)
              pm10_0_atm := u16be (b.getD 14 0) (b.getD 15 0)
              count_0_3 := u16be (b.getD 16 0) (b.getD 17 0)
              count_0_5 := u16be (b.getD 18 0) (b.getD 19 0)
              count_1_0 := u16be (b.getD 20 0) (b.getD 21 0)
              count_2_5 := u16be (b.getD 22 0) (b.getD 23 0)
              count_5_0 := u16be (b.getD 24 0) (b.getD 25 0)
              count_10_0 := u16be (b.getD 26 0) (b.getD 27 0)
              reserved := u16be (b.getD 28 0) (b.getD 29 0)
              checksum := u16be (b.getD 30 0) (b.getD 31 0) }, 0) ∧
    b.drop 32 = [] := by
  have htake : b.take 32 = b := List.take_of_length_le (by omega)
  have hdropnil : b.drop 32 = [] := List.drop_eq_nil_of_le (by omega)
  have hheader : header_valid (unpack32 b) = true := by
    show (b.getD 0 0 == HEADER_HIGH && b.getD 1 0 == HEADER_LOW) = true
    rw [h0, h1]; decide
  have hcksum : checksum_valid b = true := by
    show ((b.take 30).sum == u16be (b.getD 30 0) (b.getD 31 0)) = true
    rw [hck]; exact beq_self_eq_true _
  refine ⟨?_, hdropnil⟩
  unfold readStep
  simp only [PMS_7003_PROTOCOL_SIZE, htake, hheader, hcksum, if_true]
  rfl

set_option maxRecDepth 10000 in
/-- Witness for C1 at the concrete frame `F1`. -/
theorem decode_valid_frame_witness :
    readStep F1 =
      (F1.drop 32,
       some { header_high := F1.getD 0 0
              header_low := F1.getD 1 0
              frame_length := u16be (F1.getD 2 0) (F1.getD 3 0)
              pm1_0_cf1 := u16be (F1.getD 4 0) (F1.getD 5 0)
              pm2_5_cf1 := u16be (F1.getD 6 0) (F1.getD 7 0)
              pm10_0_cf1 := u16be (F1.getD 8 0) (F1.getD 9 0)
              pm1_0_atm := u16be (F1.getD 10 0) (F1.getD 11 0)
              pm2_5_atm := u16be (F1.getD 12 0) (F1.getD 13 0)
              pm10_0_atm := u16be (F1.getD 14 0) (F1.getD 15 0)
              count_0_3 := u16be (F1.getD 16 0) (F1.getD 17 0)
              count_0_5 := u16be (F1.getD 18 0) (F1.getD 19 0)
              count_1_0 := u16be (F1.getD 20 0) (F1.getD 21 0)
              count_2_5 := u16be (F1.getD 22 0) (F1.getD 23 0)
              count_5_0 := u16be (F1.getD 24 0) (F1.getD 25 0)
              count_10_0 := u16be (F1.getD 26 0) (F1.getD 27 0)
              reserved := u16be (F1.getD 28 0) (F1.getD 29 0)
              checksum := u16be (F1.getD 30 0) (F1.getD 31 0) }, 0) ∧
    F1.drop 32 = [] :=
  decode_valid_frame F1 (by decide) (by decide) (by decide) (by decide)

/-- C2: the checksum check accepts a 32-byte candidate frame exactly when the
transmitted big-endian 16-bit checksum field equals the sum, modulo 65536, of
the 30 preceding bytes; moreover the implementation's unreduced byte sum is
always below 65536 (it is at most 30 * 255 = 7650), so omitting the modular
reduction never changes the verdict. -/
theorem checksum_valid_iff_mod (b : List Nat) (hlen : b.length = 32)
    (hbytes : ∀ x ∈ b, x < 256) :
    (b.take 30).sum < 65536 ∧
    (checksum_valid b = true ↔
      u16be (b.getD 30 0) (b.getD 31 0) = (b.take 30).sum % 65536) := by
  have hle : ∀ x ∈ b.take 30, x ≤ 255 := by
    intro x hx
    have := hbytes x (List.mem_of_mem_take hx)
    omega
  have hlen30 : (b.take 30).length ≤ 30 := List.length_take_le 30 b
  have hsum : (b.take 30).sum ≤ (b.take 30).length * 255 := by
    have := List.sum_le_card_nsmul (b.take 30) 255 hle
    simpa using this
  have hbound : (b.take 30).sum < 65536 := by
    have : (b.take 30).length * 255 ≤ 30 * 255 :=
      Nat.mul_le_mul_right 255 hlen30
    omega
  refine ⟨hbound, ?_⟩
  have hmod : (b.take 30).sum % 65536 = (b.take 30).sum :=
    Nat.mod_eq_of_lt hbound
  rw [hmod]
  unfold checksum_valid
  rw [beq_iff_eq]
  exact eq_comm

set_option maxRecDepth 10000 in
/-- Witness for C2 at the concrete frame `F1`. -/
theorem checksum_valid_iff_mod_witness :
    (F1.take 30).sum < 65536 ∧
    (checksum_valid F1 = true ↔
      u16be (F1.getD 30 0) (F1.getD 31 0) = (F1.take 30).sum % 65536) :=
  checksum_valid_iff_mod F1 (by decide) (by decide)

/-- `F1` with its checksum byte corrupted (143 → 142): valid header,
invalid checksum. -/
def F1bad : List Nat :=
  [0x42, 0x4D, 0, 0, 0, 0, 0, 0, 0, 0, 0, 0, 0, 0, 0, 0,
   0, 0, 0, 0, 0, 0, 0, 0, 0, 0, 0, 0, 0, 0, 0, 142]

/-- One iteration of the consume loop on a buffer whose first 32 bytes have
a valid header but an invalid checksum: the frame is dropped whole and the
error counter increment is 1. -/
lemma readStep_bad_checksum (b : List Nat)
    (hh : header_valid (unpack32 (b.take 32)) = true)
    (hc : checksum_valid (b.take 32) = false) :
    readStep b = (b.drop 32, none, 1) := by
  simp only [readStep, PMS_7003_PROTOCOL_SIZE, hh, hc]
  simp

/-- C6: when the 32-byte candidate at the front of the buffer has the
sentinel header but a failing checksum, one iteration of the read loop
consumes exactly 32 bytes (not one), produces no Reading, increments the
checksum-error counter by exactly one, and the loop carries on with the rest
of the buffer instead of aborting. -/
theorem checksum_mismatch_consumes_frame (b : List Nat) (fuel : Nat)
    (d : Option PMSData) (e : Nat) (hlen : 32 ≤ b.length)
    (hh : header_valid (unpack32 (b.take 32)) = true)
    (hc : checksum_valid (b.take 32) = false) :
    readStep b = (b.drop 32, none, 1) ∧
    consumeGo (fuel + 1) b d e = consumeGo fuel (b.drop 32) none (e + 1) := by
  have hstep := readStep_bad_checksum b hh hc
  refine ⟨hstep, ?_⟩
  have hge : b.length ≥ PMS_7003_PROTOCOL_SIZE := hlen
  show (if b.length ≥ PMS_7003_PROTOCOL_SIZE then
          match readStep b with
          | (b', d', e') => consumeGo fuel b' d' (e + e')
        else (b, d, e)) = consumeGo fuel (b.drop 32) none (e + 1)
  rw [if_pos hge, hstep]

set_option maxRecDepth 10000 in
/-- Witness for C6 at the corrupt concrete frame `F1bad`. -/
theorem checksum_mismatch_consumes_frame_witness :
    readStep F1bad = (F1bad.drop 32, none, 1) ∧
    consumeGo 1 F1bad none 0 = consumeGo 0 (F1bad.drop 32) none 1 :=
  checksum_mismatch_consumes_frame F1bad 0 none 0 (by decide) (by decide)
    (by decide)

/-- Each iteration of the consume loop leaves either the 32-byte tail or the
1-byte tail of its input buffer. -/
lemma readStep_drop (b : List Nat) :
    (readStep b).1 = b.drop 32 ∨ (readStep b).1 = b.drop 1 := by
  by_cases hh : header_valid (unpack32 (b.take 32)) = true
  · by_cases hc : checksum_valid (b.take 32) = true
    · simp [readStep, PMS_7003_PROTOCOL_SIZE, hh, hc]
    · simp [readStep, PMS_7003_PROTOCOL_SIZE, hh, hc]
  · simp [readStep, PMS_7003_PROTOCOL_SIZE, hh]

/-- The byte-accumulation loop only ever appends to the buffer. -/
lemma fillBuffer_append (fuel : Nat) :
    ∀ (b : List Nat) (src : Nat → List Nat) (idx : Nat) (b' : List Nat)
      (idx' : Nat), fillBuffer fuel b src idx = some (b', idx') →
      ∃ t, b' = b ++ t := by
  induction fuel with
  | zero =>
    intro b src idx b' idx' h
    unfold fillBuffer at h
    by_cases hb : b.length ≥ PMS_7003_PROTOCOL_SIZE
    · rw [if_pos hb] at h
      simp only [Option.some.injEq, Prod.mk.injEq] at h
      exact ⟨[], by rw [← h.1, List.append_nil]⟩
    · rw [if_neg hb] at h
      exact absurd h (by simp)
  | succ fuel ih =>
    intro b src idx b' idx' h
    unfold fillBuffer at h
    by_cases hb : b.length ≥ PMS_7003_PROTOCOL_SIZE
    · rw [if_pos hb] at h
      simp only [Option.some.injEq, Prod.mk.injEq] at h
      exact ⟨[], by rw [← h.1, List.append_nil]⟩
    · rw [if_neg hb] at h
      obtain ⟨t, ht⟩ := ih (b ++ src idx) src (idx + 1) b' idx' h
      exact ⟨src idx ++ t, by simpa using ht⟩

/-- The consume loop only ever removes bytes from the front: its final
buffer is a drop of its input buffer. -/
lemma consumeGo_drop (fuel : Nat) :
    ∀ (b : List Nat) (d : Option PMSData) (e : Nat),
      ∃ k, (consumeGo fuel b d e).1 = b.drop k := by
  induction fuel with
  | zero =>
    intro b d e
    exact ⟨0, rfl⟩
  | succ fuel ih =>
    intro b d e
    unfold consumeGo
    by_cases hb : b.length ≥ PMS_7003_PROTOCOL_SIZE
    · rw [if_pos hb]
      obtain ⟨k, hk⟩ := ih (readStep b).1 (readStep b).2.1 (e + (readStep b).2.2)
      rcases readStep_drop b with hd | hd
      · exact ⟨32 + k, by
          show (consumeGo fuel (readStep b).1 (readStep b).2.1
            (e + (readStep b).2.2)).1 = _
          rw [hk, hd, List.drop_drop]⟩
      · exact ⟨1 + k, by
          show (consumeGo fuel (readStep b).1 (readStep b).2.1
            (e + (readStep b).2.2)).1 = _
          rw [hk, hd, List.drop_drop]⟩
    · rw [if_neg hb]
      exact ⟨0, rfl⟩

/-- C9: every step of the read loop respects the receive-buffer discipline:
the consume step leaves exactly the 32-byte tail of the buffer when the
candidate header matches and exactly the 1-byte tail when it does not (never
touching the middle or reordering), the fill loop only appends newly read
bytes at the back, and consequently the buffer after a full consume loop is
a contiguous in-order suffix (a `drop`) of the buffer it started from. -/
theorem buffer_discipline (b : List Nat) (src : Nat → List Nat)
    (fuel idx : Nat) (d : Option PMSData) (e : Nat) :
    ((header_valid (unpack32 (b.take 32)) = true →
        (readStep b).1 = b.drop 32) ∧
     (header_valid (unpack32 (b.take 32)) = false →
        (readStep b).1 = b.drop 1)) ∧
    (∀ b' idx', fillBuffer fuel b src idx = some (b', idx') →
      ∃ t, b' = b ++ t) ∧
    (∃ k, (consumeGo fuel b d e).1 = b.drop k) := by
  refine ⟨⟨?_, ?_⟩, fillBuffer_append fuel b src idx, consumeGo_drop fuel b d e⟩
  · intro hh
    by_cases hc : checksum_valid (b.take 32) = true
    · simp [readStep, PMS_7003_PROTOCOL_SIZE, hh, hc]
    · simp [readStep, PMS_7003_PROTOCOL_SIZE, hh, hc]
  · intro hh
    simp [readStep, PMS_7003_PROTOCOL_SIZE, hh]

set_option maxRecDepth 10000 in
/-- Witness for C9: one garbage byte in front of `F1` is slid past one byte
at a time, a satisfied fill loop appends nothing, and the consume loop ends
on a suffix. -/
theorem buffer_discipline_witness :
    (readStep (0 :: F1)).1 = (0 :: F1).drop 1 ∧
    (∃ t, (0 : Nat) :: F1 = (0 :: F1) ++ t) ∧
    (∃ k, (consumeGo 33 (0 :: F1) none 0).1 = (0 :: F1).drop k) := by
  refine ⟨(buffer_discipline (0 :: F1) (fun _ => []) 33 0 none 0).1.2
      (by decide),
    (buffer_discipline (0 :: F1) (fun _ => []) 33 0 none 0).2.1
      (0 :: F1) 0 (by decide),
    (buffer_discipline (0 :: F1) (fun _ => []) 33 0 none 0).2.2⟩

/-- The header check of a candidate frame looks only at the first two bytes
of the buffer. -/
lemma header_valid_cons (a c : Nat) (t : List Nat) :
    header_valid (unpack32 ((a :: c :: t).take 32)) =
      (a == HEADER_HIGH && c == HEADER_LOW) := rfl

/-- A consume-loop iteration on a buffer whose first two bytes are not the
sentinel pair slides forward by exactly one byte. -/
lemma readStep_header_mismatch (a c : Nat) (t : List Nat)
    (h : ¬(a = HEADER_HIGH ∧ c = HEADER_LOW)) :
    readStep (a :: c :: t) = (c :: t, none, 0) := by
  have hh : header_valid (unpack32 ((a :: c :: t).take 32)) = false := by
    rw [header_valid_cons]
    by_cases h1 : a = HEADER_HIGH
    · by_cases h2 : c = HEADER_LOW
      · exact absurd ⟨h1, h2⟩ h
      · simp [h1, h2]
    · simp [h1]
  simp only [readStep, PMS_7003_PROTOCOL_SIZE]
  rw [hh]
  simp

/-- Dropping to an offset that does not start the sentinel pair, a
consume-loop iteration discards exactly one more byte. -/
lemma readStep_drop_of_no_header (L : List Nat) (k : Nat)
    (hlen : k + 2 ≤ L.length)
    (hk : ¬(L.getD k 0 = HEADER_HIGH ∧ L.getD (k + 1) 0 = HEADER_LOW)) :
    readStep (L.drop k) = (L.drop (k + 1), none, 0) := by
  have hk1 : k < L.length := by omega
  have hk2 : k + 1 < L.length := by omega
  have e1 : L.drop k = L[k] :: L.drop (k + 1) := List.drop_eq_getElem_cons hk1
  have e2 : L.drop (k + 1) = L[k + 1] :: L.drop (k + 2) :=
    List.drop_eq_getElem_cons hk2
  have hg1 : L.getD k 0 = L[k] := List.getD_eq_getElem L 0 hk1
  have hg2 : L.getD (k + 1) 0 = L[k + 1] := List.getD_eq_getElem L 0 hk2
  rw [e1, e2]
  rw [readStep_header_mismatch L[k] (L[k + 1]) (L.drop (k + 2))
    (by rw [← hg1, ← hg2]; exact hk)]

/-- A consume-loop iteration on a buffer starting with a valid frame
consumes the whole frame and decodes it. -/
lemma readStep_valid_frame (f rest : List Nat) (hf : validFrame f) :
    readStep (f ++ rest) = (rest, some (unpack32 f), 0) := by
  obtain ⟨hlen, h0, h1, hck⟩ := hf
  have htake : (f ++ rest).take 32 = f := by
    rw [← hlen]; exact List.take_left f rest
  have hdrop : (f ++ rest).drop 32 = rest := by
    rw [← hlen]; exact List.drop_left f rest
  have hh : header_valid (unpack32 f) = true := by
    show (f.getD 0 0 == HEADER_HIGH && f.getD 1 0 == HEADER_LOW) = true
    rw [h0, h1]; decide
  simp only [readStep, PMS_7003_PROTOCOL_SIZE, htake, hdrop, hh, hck,
    if_true]

/-- Running the consume loop on a buffer starting with a valid frame is the
same as consuming the frame and continuing on the rest. -/
lemma consumeGo_valid_frame (fuel : Nat) (f rest : List Nat)
    (d : Option PMSData) (e : Nat) (hf : validFrame f) :
    consumeGo (fuel + 1) (f ++ rest) d e =
      consumeGo fuel rest (some (unpack32 f)) e := by
  have hge : (f ++ rest).length ≥ PMS_7003_PROTOCOL_SIZE := by
    rw [List.length_append, hf.1]
    simp [PMS_7003_PROTOCOL_SIZE]
  show (if (f ++ rest).length ≥ PMS_7003_PROTOCOL_SIZE then
          match readStep (f ++ rest) with
          | (b', d', e') => consumeGo fuel b' d' (e + e')
        else (f ++ rest, d, e)) = _
  rw [if_pos hge, readStep_valid_frame f rest hf]
  rfl

/-- The consume loop over `N` non-header garbage bytes followed by a valid
frame slides one byte at a time past the garbage and then decodes the
frame, emptying the buffer. -/
lemma consume_garbage (f : List Nat) (hf : validFrame f) :
    ∀ (g : List Nat) (d : Option PMSData),
      (∀ i, i < g.length →
        ¬((g ++ f).getD i 0 = HEADER_HIGH ∧
          (g ++ f).getD (i + 1) 0 = HEADER_LOW)) →
      consumeGo (g ++ f).length (g ++ f) d 0 =
        ([], some (unpack32 f), 0) := by
  intro g
  induction g with
  | nil =>
    intro d _
    simp only [List.nil_append]
    rw [hf.1]
    have hstep := consumeGo_valid_frame 31 f [] d 0 hf
    rw [List.append_nil] at hstep
    rw [show (32 : Nat) = 31 + 1 from rfl, hstep]
    rfl
  | cons a g' ih =>
    intro d hg
    have hflen : f.length = 32 := hf.1
    have hlen2 : (a :: (g' ++ f)).length ≥ PMS_7003_PROTOCOL_SIZE := by
      simp only [List.length_cons, List.length_append, hflen,
        PMS_7003_PROTOCOL_SIZE]
      omega
    cases hgf : g' ++ f with
    | nil =>
      have := congrArg List.length hgf
      simp [hflen] at this
    | cons c t =>
      have hg0 := hg 0 (by simp)
      have hmis : ¬(a = HEADER_HIGH ∧ c = HEADER_LOW) := by
        simpa [List.cons_append, hgf] using hg0
      have hg' : ∀ i, i < g'.length →
          ¬((g' ++ f).getD i 0 = HEADER_HIGH ∧
            (g' ++ f).getD (i + 1) 0 = HEADER_LOW) := by
        intro i hi
        have := hg (i + 1) (by simp; omega)
        simpa [List.cons_append] using this
      have hstep : readStep (a :: (g' ++ f)) = (g' ++ f, none, 0) := by
        rw [hgf]; exact readStep_header_mismatch a c t hmis
      show consumeGo ((a :: g') ++ f).length ((a :: g') ++ f) d 0 = _
      rw [List.cons_append]
      rw [show (a :: (g' ++ f)).length = (g' ++ f).length + 1 from by simp]
      show (if (a :: (g' ++ f)).length ≥ PMS_7003_PROTOCOL_SIZE then
              match readStep (a :: (g' ++ f)) with
              | (b', d', e') => consumeGo (g' ++ f).length b' d' (0 + e')
            else (a :: (g' ++ f), d, 0)) = _
      rw [if_pos hlen2, hstep]
      show consumeGo (g' ++ f).length (g' ++ f) none 0 = _
      exact ih none hg'

/-- C5: a buffer of `N ≤ 40` garbage bytes, none of which starts the
sentinel pair 0x42 0x4D, followed by a valid frame: each consume-loop
iteration over the garbage discards exactly one byte from the front (never
the whole 32), and after exactly `N` such one-byte discards the embedded
Reading is decoded and returned. -/
theorem resync_one_byte_recovers (g f : List Nat) (hN : g.length ≤ 40)
    (hf : validFrame f)
    (hg : ∀ i, i < g.length →
      ¬((g ++ f).getD i 0 = HEADER_HIGH ∧
        (g ++ f).getD (i + 1) 0 = HEADER_LOW)) :
    (∀ k, k < g.length →
      readStep ((g ++ f).drop k) = ((g ++ f).drop (k + 1), none, 0)) ∧
    consumeLoop (g ++ f) none 0 = ([], some (unpack32 f), 0) := by
  constructor
  · intro k hk
    have hlen : k + 2 ≤ (g ++ f).length := by
      rw [List.length_append, hf.1]
      omega
    exact readStep_drop_of_no_header (g ++ f) k hlen (hg k hk)
  · exact consume_garbage f hf g none hg

set_option maxRecDepth 10000 in
/-- Witness for C5: two garbage bytes in front of `F1`. -/
theorem resync_one_byte_recovers_witness :
    (∀ k, k < ([7, 9] : List Nat).length →
      readStep ((([7, 9] : List Nat) ++ F1).drop k) =
        ((([7, 9] : List Nat) ++ F1).drop (k + 1), none, 0)) ∧
    consumeLoop (([7, 9] : List Nat) ++ F1) none 0 =
      ([], some (unpack32 F1), 0) :=
  resync_one_byte_recovers [7, 9] F1 (by decide) (by decide) (by decide)

/-- The consume loop returns immediately on a buffer below the frame size. -/
lemma consumeGo_small (fuel : Nat) (b : List Nat) (d : Option PMSData)
    (e : Nat) (h : b.length < 32) : consumeGo fuel b d e = (b, d, e) := by
  cases fuel with
  | zero => rfl
  | succ fuel =>
    show (if b.length ≥ PMS_7003_PROTOCOL_SIZE then
            match readStep b with
            | (b', d', e') => consumeGo fuel b' d' (e + e')
          else (b, d, e)) = (b, d, e)
    rw [if_neg (by simp [PMS_7003_PROTOCOL_SIZE]; omega)]

/-- The byte-accumulation loop exits at once when the buffer already holds a
full frame. -/
lemma fillBuffer_done (fuel : Nat) (b : List Nat) (src : Nat → List Nat)
    (idx : Nat) (h : b.length ≥ PMS_7003_PROTOCOL_SIZE) :
    fillBuffer fuel b src idx = some (b, idx) := by
  unfold fillBuffer
  rw [if_pos h]

/-- C3 counterexample: on the concrete stream `F1 ++ F2` of two back-to-back
valid frames, a single read call consumes both frames, returns the Reading of
the second frame (not the first), and leaves the receive buffer empty (not
holding the second frame). -/
theorem read_two_frames_counterexample :
    readFromStart 8 (fun _ => 0) (fun _ => []) (F1 ++ F2) =
      some (some (unpack32 F2),
        { buffer := [], errors := 0, srcIdx := 0, tick := 2 }) ∧
    unpack32 F2 ≠ unpack32 F1 ∧ ([] : List Nat) ≠ F2 := by
  refine ⟨by decide, by decide, by decide⟩

/-- C3 (amended): a single read call on a buffer of two back-to-back valid
frames runs the consume loop until the buffer is nearly empty, overwriting
the first Reading with the second: it returns the Reading decoded from the
second (last) frame and leaves the receive buffer empty. -/
theorem read_two_frames_returns_last (time : Nat → Int)
    (src : Nat → List Nat) (f1 f2 : List Nat) (fuel : Nat)
    (h1 : validFrame f1) (h2 : validFrame f2)
    (ht : time 1 - time 0 ≤ READ_TIMEOUT_SEC) :
    readFromStart (fuel + 1) time src (f1 ++ f2) =
      some (some (unpack32 f2),
        { buffer := [], errors := 0, srcIdx := 0, tick := 2 }) := by
  have hlen : (f1 ++ f2).length = 64 := by
    rw [List.length_append, h1.1, h2.1]
  have hconsume : consumeLoop (f1 ++ f2) none 0 =
      ([], some (unpack32 f2), 0) := by
    unfold consumeLoop
    rw [hlen, show (64 : Nat) = 63 + 1 from rfl,
      consumeGo_valid_frame 63 f1 f2 none 0 h1]
    have h2' : validFrame f2 := h2
    have : f2 = f2 ++ [] := (List.append_nil f2).symm
    rw [show (63 : Nat) = 62 + 1 from rfl]
    calc consumeGo (62 + 1) f2 (some (unpack32 f1)) 0
        = consumeGo (62 + 1) (f2 ++ []) (some (unpack32 f1)) 0 := by
          rw [List.append_nil]
      _ = consumeGo 62 [] (some (unpack32 f2)) 0 :=
          consumeGo_valid_frame 62 f2 [] (some (unpack32 f1)) 0 h2'
      _ = ([], some (unpack32 f2), 0) := consumeGo_small 62 [] _ 0 (by simp)
  have hfill : fillBuffer fuel (f1 ++ f2) src 0 = some (f1 ++ f2, 0) :=
    fillBuffer_done fuel (f1 ++ f2) src 0
      (by rw [hlen]; simp [PMS_7003_PROTOCOL_SIZE])
  show readAux (fuel + 1) time (time 0) src
      { buffer := f1 ++ f2, errors := 0, srcIdx := 0, tick := 1 } = _
  show (if time 1 - time 0 > READ_TIMEOUT_SEC then
          some (none, { buffer := f1 ++ f2, errors := 0, srcIdx := 0,
                        tick := 1 + 1 })
        else
          match fillBuffer fuel (f1 ++ f2) src 0 with
          | none => none
          | some (buf, idx) =>
            match consumeLoop buf none 0 with
            | (buf', data, errs) =>
              match data with
              | some d =>
                some (some d, { buffer := buf', errors := errs,
                                srcIdx := idx, tick := 1 + 1 })
              | none =>
                readAux fuel time (time 0) src
                  { buffer := buf', errors := errs, srcIdx := idx,
                    tick := 1 + 1 }) = _
  rw [if_neg (not_lt.mpr ht), hfill]
  show (match consumeLoop (f1 ++ f2) none 0 with
        | (buf', data, errs) =>
          match data with
          | some d =>
            some (some d, { buffer := buf', errors := errs, srcIdx := 0,
                            tick := 1 + 1 })
          | none =>
            readAux fuel time (time 0) src
              { buffer := buf', errors := errs, srcIdx := 0,
                tick := 1 + 1 }) =
      some (some (unpack32 f2),
        { buffer := [], errors := 0, srcIdx := 0, tick := 2 })
  rw [hconsume]

/-- Witness for the amended C3 at the concrete frames `F1`, `F2`. -/
theorem read_two_frames_returns_last_witness :
    readFromStart 1 (fun _ => 0) (fun _ => []) (F1 ++ F2) =
      some (some (unpack32 F2),
        { buffer := [], errors := 0, srcIdx := 0, tick := 2 }) :=
  read_two_frames_returns_last (fun _ => 0) (fun _ => []) F1 F2 0
    (by decide) (by decide) (by decide)

/-- With a serial source that never delivers a byte, the byte-accumulation
loop never reaches 32 bytes and never terminates, at any fuel. -/
lemma fillBuffer_empty_source (fuel : Nat) :
    ∀ (b : List Nat) (idx : Nat), b.length < 32 →
      fillBuffer fuel b (fun _ => []) idx = none := by
  induction fuel with
  | zero =>
    intro b idx h
    unfold fillBuffer
    rw [if_neg (by simp [PMS_7003_PROTOCOL_SIZE]; omega)]
  | succ fuel ih =>
    intro b idx h
    unfold fillBuffer
    rw [if_neg (by simp [PMS_7003_PROTOCOL_SIZE]; omega)]
    rw [List.append_nil]
    exact ih b (idx + 1) h

/-- C4 is a code bug: with a serial source that never supplies any bytes
(every `serial.read(1024)` returns the empty string) and fewer than 32
buffered bytes, the read operation diverges at every fuel — the deadline is
only re-checked at the top of the outer loop, which is never reached again —
instead of failing with the Timeout outcome within the 2-second deadline as
the spec (and the code's own `READ_TIMEOUT_SEC` comment) require. -/
theorem read_silent_source_diverges (fuel : Nat) (time : Nat → Int)
    (b : List Nat) (hb : b.length < 32)
    (ht : time 1 - time 0 ≤ READ_TIMEOUT_SEC) :
    readFromStart fuel time (fun _ => []) b = none := by
  cases fuel with
  | zero => rfl
  | succ fuel =>
    show (if time 1 - time 0 > READ_TIMEOUT_SEC then
            some (none, { buffer := b, errors := 0, srcIdx := 0,
                          tick := 1 + 1 })
          else
            match fillBuffer fuel b (fun _ => []) 0 with
            | none => none
            | some (buf, idx) =>
              match consumeLoop buf none 0 with
              | (buf', data, errs) =>
                match data with
                | some d =>
                  some (some d, { buffer := buf', errors := errs,
                                  srcIdx := idx, tick := 1 + 1 })
                | none =>
                  readAux fuel time (time 0) (fun _ => [])
                    { buffer := buf', errors := errs, srcIdx := idx,
                      tick := 1 + 1 }) = none
    rw [if_neg (not_lt.mpr ht), fillBuffer_empty_source fuel b 0 hb]

/-- Witness for the C4 divergence theorem: a silent source, empty buffer. -/
theorem read_silent_source_diverges_witness :
    readFromStart 5 (fun _ => 0) (fun _ => []) [] = none :=
  read_silent_source_diverges 5 (fun _ => 0) [] (by decide) (by decide)

/-- Replacing one element of a list changes its sum by exactly the
difference between the new and old values (stated additively to avoid
truncated subtraction). -/
lemma sum_set_add (l : List Nat) : ∀ (j x : Nat), j < l.length →
    (l.set j x).sum + l.getD j 0 = l.sum + x := by
  induction l with
  | nil => intro j x hj; simp at hj
  | cons a t ih =>
    intro j x hj
    cases j with
    | zero => simp [List.sum_cons]; omega
    | succ j =>
      simp only [List.set_cons_succ, List.sum_cons, List.getD_cons_succ]
      have := ih j x (by simpa using hj)
      omega

/-- `take` commutes with `set`. -/
lemma take_set_comm (l : List Nat) : ∀ (n i x : Nat),
    (l.set i x).take n = (l.take n).set i x := by
  induction l with
  | nil => simp
  | cons a t ih =>
    intro n i x
    cases n with
    | zero => simp
    | succ n =>
      cases i with
      | zero => simp
      | succ i =>
        simp only [List.set_cons_succ, List.take_succ_cons]
        rw [ih n i x]

/-- Writing off the end of a list changes nothing. -/
lemma getD_set_ne (l : List Nat) (i j x d : Nat) (h : i ≠ j) :
    (l.set i x).getD j d = l.getD j d := by
  simp [List.getD_eq_getElem?_getD, List.getElem?_set_ne h]

/-- Reading back the element just written. -/
lemma getD_set_eq (l : List Nat) (i x d : Nat) (h : i < l.length) :
    (l.set i x).getD i d = x := by
  simp [List.getD_eq_getElem?_getD, List.getElem?_set_self, h]

/-- `getD` inside the taken prefix reads the original list. -/
lemma getD_take (l : List Nat) (n i d : Nat) (h : i < n) :
    (l.take n).getD i d = l.getD i d := by
  simp [List.getD_eq_getElem?_getD, List.getElem?_take, h]

/-- Flipping a bit changes a number. -/
lemma xor_pow_ne (x k : Nat) : x ^^^ 2 ^ k ≠ x := by
  intro hc
  have h2 : x ^^^ (x ^^^ 2 ^ k) = x ^^^ x := by rw [hc]
  simp [← Nat.xor_assoc] at h2

/-- C7: flipping any single bit (bit `k < 8` of the byte at any offset
`2 ≤ j < 32`, i.e. anywhere in the body outside the two header bytes) of a
valid frame makes the checksum comparison fail — a flip in bytes 2..29
changes the byte sum by a nonzero power of two while leaving the transmitted
field alone, and a flip in bytes 30..31 changes the transmitted field while
leaving the sum alone — and the decode step on the mutated frame then
consumes all 32 bytes (emptying the frame-sized buffer) with no Reading and
a checksum-error increment of one. -/
theorem bit_flip_fails_checksum (f : List Nat) (j k : Nat)
    (hf : validFrame f) (hbytes : ∀ x ∈ f, x < 256)
    (hj2 : 2 ≤ j) (hj : j < 32) (hk : k < 8) :
    checksum_valid (f.set j (f.getD j 0 ^^^ 2 ^ k)) = false ∧
    readStep (f.set j (f.getD j 0 ^^^ 2 ^ k)) = ([], none, 1) := by
  obtain ⟨hlen, h0, h1, hck⟩ := hf
  have hjlen : j < f.length := by omega
  have hxne : f.getD j 0 ^^^ 2 ^ k ≠ f.getD j 0 := xor_pow_ne _ k
  have hsum : (f.take 30).sum = u16be (f.getD 30 0) (f.getD 31 0) := by
    have h := hck
    unfold checksum_valid at h
    rwa [beq_iff_eq] at h
  have hlen' : (f.set j (f.getD j 0 ^^^ 2 ^ k)).length = 32 := by
    rw [List.length_set, hlen]
  have hTlen : (f.take 30).length = 30 := by
    rw [List.length_take, hlen]
    omega
  have hcnew : checksum_valid (f.set j (f.getD j 0 ^^^ 2 ^ k)) = false := by
    unfold checksum_valid
    rw [beq_eq_false_iff_ne]
    rcases Nat.lt_or_ge j 30 with hj30 | hj30
    · rw [getD_set_ne f j 30 _ 0 (by omega), getD_set_ne f j 31 _ 0 (by omega)]
      rw [take_set_comm]
      have hss := sum_set_add (f.take 30) j (f.getD j 0 ^^^ 2 ^ k) (by omega)
      rw [getD_take f 30 j 0 hj30] at hss
      intro hc
      rw [← hsum] at hc
      omega
    · rw [take_set_comm, List.set_eq_of_length_le (by omega)]
      have hj3031 : j = 30 ∨ j = 31 := by omega
      rcases hj3031 with rfl | rfl
      · rw [getD_set_eq f 30 _ 0 (by omega), getD_set_ne f 30 31 _ 0 (by omega)]
        rw [hsum]
        unfold u16be
        intro hc
        omega
      · rw [getD_set_ne f 31 30 _ 0 (by omega), getD_set_eq f 31 _ 0 (by omega)]
        rw [hsum]
        unfold u16be
        intro hc
        omega
  have htake32 : (f.set j (f.getD j 0 ^^^ 2 ^ k)).take 32 =
      f.set j (f.getD j 0 ^^^ 2 ^ k) :=
    List.take_of_length_le (by omega)
  have hh : header_valid
      (unpack32 ((f.set j (f.getD j 0 ^^^ 2 ^ k)).take 32)) = true := by
    rw [htake32]
    show ((f.set j (f.getD j 0 ^^^ 2 ^ k)).getD 0 0 == HEADER_HIGH &&
          (f.set j (f.getD j 0 ^^^ 2 ^ k)).getD 1 0 == HEADER_LOW) = true
    rw [getD_set_ne f j 0 _ 0 (by omega), getD_set_ne f j 1 _ 0 (by omega),
      h0, h1]
    decide
  have hstep := readStep_bad_checksum (f.set j (f.getD j 0 ^^^ 2 ^ k)) hh
    (by rw [htake32]; exact hcnew)
  refine ⟨hcnew, ?_⟩
  rw [hstep, List.drop_eq_nil_of_le (by omega)]

set_option maxRecDepth 10000 in
/-- Witness for C7: bit 0 of byte 3 of `F1` flipped. -/
theorem bit_flip_fails_checksum_witness :
    checksum_valid (F1.set 3 (F1.getD 3 0 ^^^ 2 ^ 0)) = false ∧
    readStep (F1.set 3 (F1.getD 3 0 ^^^ 2 ^ 0)) = ([], none, 1) :=
  bit_flip_fails_checksum F1 3 0 (by decide) (by decide) (by decide)
    (by decide) (by decide)

/-- C8: when the 2-second deadline has expired at the top of the outer read
loop, the operation completes normally with the value None (modelled as
`none`) — the break leaves `data = None` and the function falls through to
`return data`, with no exception raised and no typed error value — and the
device probe of `find_devices` tests exactly the truthiness of that result,
recording the falsy None as the "no data" outcome. -/
theorem timeout_returns_none (fuel : Nat) (time : Nat → Int) (began : Int)
    (source : Nat → List Nat) (st : ReadState)
    (h : time st.tick - began > READ_TIMEOUT_SEC) :
    readAux (fuel + 1) time began source st =
      some (none, { st with tick := st.tick + 1 }) ∧
    pythonTruthy none = false ∧
    probeOutcome none = some "no data" := by
  refine ⟨?_, rfl, rfl⟩
  show (if time st.tick - began > READ_TIMEOUT_SEC then
          some (none, { st with tick := st.tick + 1 })
        else
          match fillBuffer fuel st.buffer source st.srcIdx with
          | none => none
          | some (buf, idx) =>
            match consumeLoop buf none st.errors with
            | (buf', data, errs) =>
              match data with
              | some d =>
                some (some d, { buffer := buf', errors := errs,
                                srcIdx := idx, tick := st.tick + 1 })
              | none =>
                readAux fuel time began source
                  { buffer := buf', errors := errs, srcIdx := idx,
                    tick := st.tick + 1 }) =
      some (none, { st with tick := st.tick + 1 })
  rw [if_pos h]

/-- Witness for C8: the very first deadline check already finds the clock
past the deadline. -/
theorem timeout_returns_none_witness :
    readAux 1 (fun _ => 10) 0 (fun _ => [])
        { buffer := [], errors := 0, srcIdx := 0, tick := 1 } =
      some (none, { buffer := [], errors := 0, srcIdx := 0, tick := 2 }) ∧
    pythonTruthy none = false ∧
    probeOutcome none = some "no data" :=
  timeout_returns_none 0 (fun _ => 10) 0 (fun _ => [])
    { buffer := [], errors := 0, srcIdx := 0, tick := 1 } (by decide)

/-- The `SearchResult` dataclass of `pms7003.py`; `dev` records whether a
working device was attached to this entry. -/
structure SearchResult where
  port : String
  desc : String
  hwid : String
  dev : Bool
  error : Option String
  deriving Repr, DecidableEq

/-- The names bound and visible in `find_devices` at the moment the debug
log call on line 81 evaluates its f-string: the classmethod parameters
`cls` and `only` plus the local `log` assigned on line 77.  The loop
variable `p` is introduced only later, and the module defines no global
named `port`. -/
def findDevicesScopeNames : List String := ["cls", "only", "log"]

/-- Python name resolution for an f-string interpolation: the interpolated
expression is evaluated eagerly when the f-string literal is evaluated
(before the log call runs, regardless of log level), and an unbound name
raises NameError.  Returns the raised error, if any. -/
def evalFStringName (n : String) : Option String :=
  if findDevicesScopeNames.contains n then none
  else some ("NameError: name " ++ n ++ " is not defined")

/-- The per-port probing body of `find_devices` (lines 90-104): a missing
path, an unreadable path, an exception from constructing or reading the
device, or a falsy reading each set the error field; a truthy reading
attaches the device. -/
def checkPort (pathExists canRead : String → Bool)
    (readResult : String → Except String (Option PMSData))
    (p : SearchResult) : SearchResult :=
  if !pathExists p.port then { p with error := some "no such port" }
  else if !canRead p.port then { p with error := some "access denied" }
  else
    match readResult p.port with
    | Except.error e => { p with error := some e }
    | Except.ok r =>
      match probeOutcome r with
      | none => { p with dev := true }
      | some e => { p with error := some e }

/-- Python truthiness of the `Optional[str]` argument `only`, as the guard
`if only:` on line 80 evaluates it: `None` is falsy, the empty string is
falsy, and every non-empty string is truthy. -/
def pythonTruthyStr (o : Option String) : Bool :=
  match o with
  | none => false
  | some s => !(s == "")

/-- `PMS7003.find_devices` (lines 72-106).  The guard on line 80 is the
truthiness test `if only:`.  When `only` is truthy the debug log line
interpolates the unbound name `port`, so the f-string evaluation raises
NameError before any `SearchResult` is built or probed; when `only` is falsy
(None or the empty string) the com-port listing is probed port by port. -/
def find_devices (pathExists canRead : String → Bool)
    (readResult : String → Except String (Option PMSData))
    (comports : List (String × String × String)) (only : Option String) :
    Except String (List SearchResult) :=
  if pythonTruthyStr only then
    match evalFStringName "port" with
    | some err => Except.error err
    | none =>
      Except.ok
        ([({ port := only.getD "", desc := "user-specified", hwid := "",
             dev := false, error := none } : SearchResult)].map
          (checkPort pathExists canRead readResult))
  else
    Except.ok
      ((comports.map fun c =>
          ({ port := c.1, desc := c.2.1, hwid := c.2.2, dev := false,
             error := none } : SearchResult)).map
        (checkPort pathExists canRead readResult))

/-- C10 counterexample: `only = some ""` is non-None yet falsy, so the guard
`if only:` takes the else branch — no NameError is raised and discovery
returns its list of per-port outcomes for the com-port listing. -/
theorem find_devices_empty_string_counterexample :
    find_devices (fun _ => false) (fun _ => false) (fun _ => Except.ok none)
        [("p1", "d1", "h1")] (some "") =
      Except.ok [{ port := "p1", desc := "d1", hwid := "h1", dev := false,
                   error := some "no such port" }] := by
  rfl

/-- C10 (amended): for every truthy (non-empty-string) value of the `only`
argument, device discovery fails with the unbound-name error for `port` —
that name is not in the scope of the f-string on line 81 — before probing
any port, so discovery with a truthy user-specified port never returns a
list of per-port outcomes.  (A non-None but falsy `only`, the empty string,
skips the broken branch entirely.) -/
theorem find_devices_only_name_error (pathExists canRead : String → Bool)
    (readResult : String → Except String (Option PMSData))
    (comports : List (String × String × String)) (o : String)
    (ho : o ≠ "") :
    find_devices pathExists canRead readResult comports (some o) =
      Except.error "NameError: name port is not defined" ∧
    ∀ rs, find_devices pathExists canRead readResult comports (some o) ≠
      Except.ok rs := by
  have htruthy : pythonTruthyStr (some o) = true := by
    simp [pythonTruthyStr, ho]
  have hname : evalFStringName "port" =
      some "NameError: name port is not defined" := rfl
  have hmain : find_devices pathExists canRead readResult comports (some o) =
      Except.error "NameError: name port is not defined" := by
    unfold find_devices
    rw [htruthy, hname]
    rfl
  exact ⟨hmain, fun rs hok => by
    rw [hmain] at hok
    exact Except.noConfusion hok⟩

/-- Witness for the amended C10 at a concrete environment and a non-empty
port string. -/
theorem find_devices_only_name_error_witness :
    find_devices (fun _ => false) (fun _ => false)
        (fun _ => Except.ok none) [] (some "/dev/ttyUSB0") =
      Except.error "NameError: name port is not defined" :=
  (find_devices_only_name_error (fun _ => false) (fun _ => false)
    (fun _ => Except.ok none) [] "/dev/ttyUSB0" (by decide)).1

end MiniAqm
